import Mathlib

/-!
Verification development for the webwire-go server core: the binary message
codec, the request and signal dispatcher, session restoration and closure,
the session registry accounting and the graceful shutdown coordinator.

The dispatcher, the session handlers, `ServeHTTP`, `Shutdown` and `NewServer`
are embedded from `src/server.go`.  The message codec, the client agent and
the session registry are declared and exercised by the sources under `src/`
(`message_test.go`, the integration tests) but their defining files are not
part of the source tree; those definitions are modelled from the spec, as
marked by their doc comments, with the concrete wire layouts pinned down by
the unit tests in `src/message_test.go`.

Machine integers are modelled as `Nat`; a wire message is a `List Nat` of
byte values.  Go panics are modelled as `Option.none` results, and the
callback bundle of the embedder (`ServerImplementation`, `SessionManager`)
is passed in as explicit oracle arguments.
-/

namespace Webwire

/-! ## Message type tags

The spec fixes the set of tags but leaves the exact octet of each tag to the
reference implementation; the values below are an arbitrary distinct choice
kept close to the reference.  No claim depends on the particular octets. -/

def MsgErrorReply : Nat := 0

def MsgReplyShutdown : Nat := 1

def MsgInternalError : Nat := 2

def MsgSessionNotFound : Nat := 3

def MsgMaxSessConnsReached : Nat := 4

def MsgSessionsDisabled : Nat := 5

def MsgSessionCreated : Nat := 21

def MsgSessionClosed : Nat := 22

def MsgCloseSession : Nat := 31

def MsgRestoreSession : Nat := 32

def MsgSignalBinary : Nat := 63

def MsgSignalUtf8 : Nat := 64

def MsgSignalUtf16 : Nat := 65

def MsgRequestBinary : Nat := 127

def MsgRequestUtf8 : Nat := 128

def MsgRequestUtf16 : Nat := 129

def MsgReplyBinary : Nat := 191

def MsgReplyUtf8 : Nat := 192

def MsgReplyUtf16 : Nat := 193

attribute [simp] MsgErrorReply MsgReplyShutdown MsgInternalError
  MsgSessionNotFound MsgMaxSessConnsReached MsgSessionsDisabled
  MsgSessionCreated MsgSessionClosed MsgCloseSession MsgRestoreSession
  MsgSignalBinary MsgSignalUtf8 MsgSignalUtf16 MsgRequestBinary
  MsgRequestUtf8 MsgRequestUtf16 MsgReplyBinary MsgReplyUtf8 MsgReplyUtf16

/-- Payload encoding: binary, utf8 or utf16. -/
inductive PayloadEncoding
  | binary
  | utf8
  | utf16
deriving DecidableEq, Repr

/-- A payload: an encoding together with the raw payload bytes. -/
structure Payload where
  encoding : PayloadEncoding
  data : List Nat
deriving DecidableEq, Repr

/-- The parsed in-memory form of a wire message: type tag, 8-byte
correlation identifier (all zero for tags that carry none), optional name
and payload. -/
structure Message where
  msgType : Nat
  id : List Nat
  name : List Nat
  payload : Payload
deriving DecidableEq, Repr

/-- The all-zero 8-byte identifier used for tags that carry none. -/
def zeroId : List Nat := [0, 0, 0, 0, 0, 0, 0, 0]

/-- A byte is in the 7-bit printable range 0x20 to 0x7E. -/
def byteInCharset (b : Nat) : Bool := 32 ≤ b && b ≤ 126

/-- All bytes of a name (or an error code) are printable 7-bit ASCII. -/
def nameCharsetOk (name : List Nat) : Bool := name.all byteInCharset

/-- The signal tag for a payload encoding. -/
def signalTag : PayloadEncoding → Nat
  | PayloadEncoding.binary => MsgSignalBinary
  | PayloadEncoding.utf8 => MsgSignalUtf8
  | PayloadEncoding.utf16 => MsgSignalUtf16

/-- The request tag for a payload encoding. -/
def requestTag : PayloadEncoding → Nat
  | PayloadEncoding.binary => MsgRequestBinary
  | PayloadEncoding.utf8 => MsgRequestUtf8
  | PayloadEncoding.utf16 => MsgRequestUtf16

/-- The reply tag for a payload encoding. -/
def replyTag : PayloadEncoding → Nat
  | PayloadEncoding.binary => MsgReplyBinary
  | PayloadEncoding.utf8 => MsgReplyUtf8
  | PayloadEncoding.utf16 => MsgReplyUtf16

/-- Modelled from the spec: the outbound request constructor of the missing
`message.go`.  Layout `[tag][id:8][nameLen:1][name][pad?][payload]` per the
wire table of the spec; a panic (modelled as `none`) on a name longer than
255 bytes, a name byte outside 0x20 to 0x7E, or a utf16 payload of odd byte
length.  The header padding byte is inserted for utf16 payloads exactly when
the name length is odd, the parity the unit tests `TestMsgNewReqMsgUtf16`
and `TestMsgParseRequestUtf16` in `src/message_test.go` fix
(`if len(name)%2 != 0` add one 0x00 byte). -/
def NewRequestMessage (id name : List Nat) (p : Payload) : Option (List Nat) :=
  if 255 < name.length then none
  else if nameCharsetOk name = false then none
  else if p.encoding = PayloadEncoding.utf16 ∧ p.data.length % 2 = 1 then none
  else some (requestTag p.encoding :: id ++ name.length :: name ++
    (if p.encoding = PayloadEncoding.utf16 ∧ name.length % 2 = 1 then [0] else []) ++ p.data)

/-- Modelled from the spec: the outbound signal constructor of the missing
`message.go`.  Layout `[tag][nameLen:1][name][pad?][payload]`; panics
(modelled as `none`) on the same conditions as `NewRequestMessage`, and the
utf16 header padding parity is fixed by `TestMsgNewSigMsgUtf16`. -/
def NewSignalMessage (name : List Nat) (p : Payload) : Option (List Nat) :=
  if 255 < name.length then none
  else if nameCharsetOk name = false then none
  else if p.encoding = PayloadEncoding.utf16 ∧ p.data.length % 2 = 1 then none
  else some (signalTag p.encoding :: name.length :: name ++
    (if p.encoding = PayloadEncoding.utf16 ∧ name.length % 2 = 1 then [0] else []) ++ p.data)

/-- Modelled from the spec: the outbound reply constructor of the missing
`message.go`.  Layout `[tag][id:8][pad iff utf16][payload]`; panics
(modelled as `none`) on a utf16 payload of odd byte length. -/
def NewReplyMessage (id : List Nat) (p : Payload) : Option (List Nat) :=
  if p.encoding = PayloadEncoding.utf16 ∧ p.data.length % 2 = 1 then none
  else some (replyTag p.encoding :: id ++
    (if p.encoding = PayloadEncoding.utf16 then [0] else []) ++ p.data)

/-- Modelled from the spec: the error reply constructor of the missing
`message.go`.  Layout `[tag][id:8][codeLen:1][code][message]`; panics
(modelled as `none`) on an empty error code, a code longer than 255 bytes,
or a code byte outside 0x20 to 0x7E. -/
def NewErrorReplyMessage (id code emsg : List Nat) : Option (List Nat) :=
  if code = [] then none
  else if 255 < code.length then none
  else if nameCharsetOk code = false then none
  else some (MsgErrorReply :: id ++ code.length :: code ++ emsg)

/-- Modelled from the spec: the step of the parser that skips one utf16
alignment byte and reads the remaining bytes as the payload, requiring an
even payload length; an exhausted stream at this point is a parse error. -/
def parseAfterPad (enc : PayloadEncoding) (t : Nat) (idBytes name : List Nat) :
    List Nat → Option Message
  | [] => none
  | _pad :: payload =>
    if payload.length % 2 = 1 then none
    else some ⟨t, idBytes, name, ⟨enc, payload⟩⟩

/-- Modelled from the spec: the shared part of the parser for named messages
(signals and requests) of the missing `message.go`.  The input is the byte
stream following the tag (and, for requests, the identifier): a name length
byte, the name, for utf16 one alignment byte whenever the name length is
odd (parity fixed by `TestMsgParseRequestUtf16`), then the payload, which
must be of even length for utf16.  The parser also enforces the name
character set, per the parsing order given in the spec. -/
def parseNamed (enc : PayloadEncoding) (t : Nat) (idBytes : List Nat) :
    List Nat → Option Message
  | [] => none
  | nameLen :: r2 =>
    if r2.length < nameLen then none
    else if nameCharsetOk (r2.take nameLen) = false then none
    else if enc = PayloadEncoding.utf16 then
      if nameLen % 2 = 1 then
        parseAfterPad enc t idBytes (r2.take nameLen) (r2.drop nameLen)
      else
        if (r2.drop nameLen).length % 2 = 1 then none
        else some ⟨t, idBytes, r2.take nameLen, ⟨enc, r2.drop nameLen⟩⟩
    else some ⟨t, idBytes, r2.take nameLen, ⟨enc, r2.drop nameLen⟩⟩

/-- Modelled from the spec: the reply branch of the parser.  `rest` is the
byte stream following the tag: the 8-byte identifier, for utf16 one skipped
alignment byte, then the payload (even length for utf16).  The minimum
length checks correspond to `MsgMinLenReply = 9` and
`MsgMinLenReplyUtf16 = 10` of the unit tests. -/
def parseReply (enc : PayloadEncoding) (t : Nat) (rest : List Nat) : Option Message :=
  if enc = PayloadEncoding.utf16 then
    if rest.length < 9 then none
    else parseAfterPad enc t (rest.take 8) [] (rest.drop 8)
  else
    if rest.length < 8 then none
    else some ⟨t, rest.take 8, [], ⟨enc, rest.drop 8⟩⟩

/-- Modelled from the spec: the request branch of the parser.  The minimum
length checks correspond to `MsgMinLenRequest = 11` and
`MsgMinLenRequestUtf16 = 12` of the unit tests. -/
def parseRequest (enc : PayloadEncoding) (t : Nat) (rest : List Nat) : Option Message :=
  if rest.length < (if enc = PayloadEncoding.utf16 then 11 else 10) then none
  else parseNamed enc t (rest.take 8) (rest.drop 8)

/-- Modelled from the spec: the signal branch of the parser.  The minimum
length checks correspond to `MsgMinLenSignal = 3` and
`MsgMinLenSignalUtf16 = 4` of the unit tests. -/
def parseSignal (enc : PayloadEncoding) (t : Nat) (rest : List Nat) : Option Message :=
  if rest.length < (if enc = PayloadEncoding.utf16 then 3 else 2) then none
  else parseNamed enc t zeroId rest

/-- Modelled from the spec: the message parser of the missing `message.go`.
Byte 0 is the type tag; the remainder is laid out per tag following the wire
table of the spec.  Tags that carry no identifier parse with the identifier
all zero (`TestMsgParseSignalBinary`, `TestMsgParseSessClosedSig`); an empty
input or an unknown tag is a parse error
(`TestMsgParseUnknownMessageType`). -/
def parse : List Nat → Option Message
  | [] => none
  | t :: rest =>
    if t = MsgCloseSession ∨ t = MsgReplyShutdown ∨ t = MsgInternalError ∨
        t = MsgSessionNotFound ∨ t = MsgMaxSessConnsReached ∨ t = MsgSessionsDisabled then
      if rest.length = 8 then some ⟨t, rest, [], ⟨PayloadEncoding.binary, []⟩⟩ else none
    else if t = MsgRestoreSession then
      if rest.length < 9 then none
      else some ⟨t, rest.take 8, [], ⟨PayloadEncoding.binary, rest.drop 8⟩⟩
    else if t = MsgErrorReply then
      if rest.length < 10 then none
      else some ⟨t, rest.take 8, [], ⟨PayloadEncoding.binary, rest.drop 8⟩⟩
    else if t = MsgSessionCreated then
      if rest.length < 1 then none
      else some ⟨t, zeroId, [], ⟨PayloadEncoding.binary, rest⟩⟩
    else if t = MsgSessionClosed then
      if rest.length = 0 then some ⟨t, zeroId, [], ⟨PayloadEncoding.binary, []⟩⟩ else none
    else if t = MsgSignalBinary then parseSignal PayloadEncoding.binary t rest
    else if t = MsgSignalUtf8 then parseSignal PayloadEncoding.utf8 t rest
    else if t = MsgSignalUtf16 then parseSignal PayloadEncoding.utf16 t rest
    else if t = MsgRequestBinary then parseRequest PayloadEncoding.binary t rest
    else if t = MsgRequestUtf8 then parseRequest PayloadEncoding.utf8 t rest
    else if t = MsgRequestUtf16 then parseRequest PayloadEncoding.utf16 t rest
    else if t = MsgReplyBinary then parseReply PayloadEncoding.binary t rest
    else if t = MsgReplyUtf8 then parseReply PayloadEncoding.utf8 t rest
    else if t = MsgReplyUtf16 then parseReply PayloadEncoding.utf16 t rest
    else none

/-- Re-encoding of a parsed message, dispatching on the type tag exactly as
the outbound constructors lay the bytes out; the argument `b` is the value
written into the optional utf16 alignment byte, so that
`encodeWithPad msg 0` is the canonical constructor output while
`encodeWithPad msg b` ranges over the wire forms the parser does not
distinguish (the parser skips the alignment byte without checking it). -/
def encodeWithPad (msg : Message) (b : Nat) : List Nat :=
  if msg.msgType = MsgSignalBinary ∨ msg.msgType = MsgSignalUtf8 then
    msg.msgType :: msg.name.length :: msg.name ++ msg.payload.data
  else if msg.msgType = MsgSignalUtf16 then
    msg.msgType :: msg.name.length :: msg.name ++
      (if msg.name.length % 2 = 1 then [b] else []) ++ msg.payload.data
  else if msg.msgType = MsgRequestBinary ∨ msg.msgType = MsgRequestUtf8 then
    msg.msgType :: msg.id ++ msg.name.length :: msg.name ++ msg.payload.data
  else if msg.msgType = MsgRequestUtf16 then
    msg.msgType :: msg.id ++ msg.name.length :: msg.name ++
      (if msg.name.length % 2 = 1 then [b] else []) ++ msg.payload.data
  else if msg.msgType = MsgReplyBinary ∨ msg.msgType = MsgReplyUtf8 then
    msg.msgType :: msg.id ++ msg.payload.data
  else if msg.msgType = MsgReplyUtf16 then
    msg.msgType :: msg.id ++ b :: msg.payload.data
  else if msg.msgType = MsgRestoreSession ∨ msg.msgType = MsgErrorReply then
    msg.msgType :: msg.id ++ msg.payload.data
  else if msg.msgType = MsgCloseSession ∨ msg.msgType = MsgReplyShutdown ∨
      msg.msgType = MsgInternalError ∨ msg.msgType = MsgSessionNotFound ∨
      msg.msgType = MsgMaxSessConnsReached ∨ msg.msgType = MsgSessionsDisabled then
    msg.msgType :: msg.id
  else if msg.msgType = MsgSessionCreated then
    msg.msgType :: msg.payload.data
  else if msg.msgType = MsgSessionClosed then
    [msg.msgType]
  else []

/-- Canonical re-encoding of a parsed message: the alignment byte, when one
is present, is written as 0x00, exactly as the constructors write it. -/
def encodeMessage (msg : Message) : List Nat := encodeWithPad msg 0

example : parse [31, 1, 2, 3, 4, 5, 6, 7, 8] =
    some ⟨31, [1, 2, 3, 4, 5, 6, 7, 8], [], ⟨PayloadEncoding.binary, []⟩⟩ := by decide

example : parse [129, 0, 0, 0, 0, 0, 0, 0, 0, 1, 97, 0, 114, 0, 97, 0] =
    some ⟨129, zeroId, [97], ⟨PayloadEncoding.utf16, [114, 0, 97, 0]⟩⟩ := by decide

example : NewRequestMessage zeroId [97] ⟨PayloadEncoding.utf16, [114, 0, 97, 0]⟩ =
    some [129, 0, 0, 0, 0, 0, 0, 0, 0, 1, 97, 0, 114, 0, 97, 0] := by decide

example : NewSignalMessage [97, 98] ⟨PayloadEncoding.utf16, [114, 0]⟩ =
    some [65, 2, 97, 98, 114, 0] := by decide

example : NewReplyMessage [1, 2, 3, 4, 5, 6, 7, 8] ⟨PayloadEncoding.utf16, [114, 0]⟩ =
    some [193, 1, 2, 3, 4, 5, 6, 7, 8, 0, 114, 0] := by decide

example : NewErrorReplyMessage zeroId [] [97] = none := by decide

/-! ## Sessions, client agents and the session registry -/

/-- A session: opaque key, creation timestamp and an opaque key-value info
attachment supplied by the embedder.  Timestamps are modelled as `Nat`,
strings as byte lists. -/
structure Session where
  key : List Nat
  creation : Nat
  info : List (List Nat × List Nat)
deriving DecidableEq, Repr

/-- Modelled from the spec: the JSON encoding of a session
(`json.Marshal` on the session object), abstracted as a total injective
flattening of its fields; for the session values of this model the Go
encoder cannot fail. -/
def encodeSession (s : Session) : List Nat :=
  s.key ++ s.creation :: (s.info.map (fun kv => kv.1 ++ kv.2)).flatten

/-- The zero `time.Time` value, modelled as timestamp 0. -/
def zeroTime : Nat := 0

/-- A client agent: per-connection state reduced to the session pointer,
which is `none` or one session. -/
structure Client where
  session : Option Session
deriving DecidableEq, Repr

/-- Modelled from the spec: a freshly connected client agent holds no
session. -/
def newClientAgent : Client := ⟨none⟩

/-- Modelled from the spec: the `Session()` getter of the missing client
agent source returns the session pointer (`nil` when no session is held). -/
def Client.Session (c : Client) : Option Session := c.session

/-- Modelled from the spec: the `HasSession()` getter. -/
def Client.HasSession (c : Client) : Bool := c.session.isSome

/-- Modelled from the spec: the `SessionCreation()` getter returns the
creation time of the held session and the zero time value when no session
is held. -/
def Client.SessionCreation (c : Client) : Nat :=
  match c.session with
  | none => zeroTime
  | some s => s.creation

/-- Modelled from the spec: the `SessionKey()` getter returns the key of
the held session and the empty string when no session is held. -/
def Client.SessionKey (c : Client) : List Nat :=
  match c.session with
  | none => []
  | some s => s.key

/-- Modelled from the spec: the `SessionInfo(field)` getter looks the field
up in the info attachment of the held session and returns `nil` when no
session is held. -/
def Client.SessionInfo (c : Client) (field : List Nat) : Option (List Nat) :=
  match c.session with
  | none => none
  | some s => (s.info.find? (fun kv => kv.1 == field)).map (fun kv => kv.2)

/-- The session registry: the per-key bucket sizes (number of connected
agents holding the session with that key; 0 means no bucket) together with
the configured cap, 0 meaning unlimited. -/
structure SessionRegistry where
  maxConns : Nat
  conns : List Nat → Nat

/-- Modelled from the spec: `SessionConnections(key)` returns the current
bucket size for the key. -/
def SessionRegistry.SessionConnections (r : SessionRegistry) (key : List Nat) : Nat :=
  r.conns key

/-- Modelled from the spec: `register(agent)` inserts the agent into the
bucket for its session key and returns false (here `none`) exactly when the
bucket is already at the cap, a cap of 0 meaning unlimited. -/
def SessionRegistry.register (r : SessionRegistry) (key : List Nat) : Option SessionRegistry :=
  if 0 < r.maxConns ∧ r.maxConns ≤ r.conns key then none
  else some ⟨r.maxConns, Function.update r.conns key (r.conns key + 1)⟩

/-- Modelled from the spec: `deregister(agent)` removes the agent from the
bucket for its session key, dropping the bucket when it empties. -/
def SessionRegistry.deregister (r : SessionRegistry) (key : List Nat) : SessionRegistry :=
  ⟨r.maxConns, Function.update r.conns key (r.conns key - 1)⟩

/-! ## Replies and the fail and fulfill callbacks -/

/-- A request error carrying an error code and a human readable message,
both visible to the peer (`ReqErr` in the Go sources). -/
structure ReqErr where
  code : List Nat
  message : List Nat
deriving DecidableEq, Repr

/-- The dynamic type of the error value returned by `OnRequest`, mirroring
the type switch in `handleRequest` (src/server.go:196): `nil`, `ReqErr`,
`*ReqErr`, or any other error, the latter carrying the embedder diagnostic
text. -/
inductive ErrorValue
  | nil
  | reqErr (e : ReqErr)
  | reqErrPtr (e : ReqErr)
  | other (diag : List Nat)
deriving DecidableEq, Repr

/-- The reason value passed to the fail callback by the dispatcher and the
session handlers (`msg.fail(...)` in src/server.go). -/
inductive FailReason
  | nilErr
  | sessionsDisabled
  | sessNotFound
  | maxSessConnsReached
  | reqErr (e : ReqErr)
  | other (diag : List Nat)
deriving DecidableEq, Repr

/-- Modelled from the spec: the fail callback of the missing client agent
source encodes its reason into the outbound reply wire: a `ReqErr` into an
`ErrorReply` carrying its code and message, the session error values into
their special replies, and `nil` or any other error into the generic
`InternalError` special reply that carries nothing but the tag and the
correlation identifier. -/
def failReplyBytes (id : List Nat) : FailReason → List Nat
  | FailReason.reqErr e => MsgErrorReply :: id ++ e.code.length :: e.code ++ e.message
  | FailReason.sessionsDisabled => MsgSessionsDisabled :: id
  | FailReason.sessNotFound => MsgSessionNotFound :: id
  | FailReason.maxSessConnsReached => MsgMaxSessConnsReached :: id
  | FailReason.nilErr => MsgInternalError :: id
  | FailReason.other _ => MsgInternalError :: id

/-- Modelled from the spec: the fulfill callback encodes a `Reply*` message
with the same correlation identifier as the request. -/
def fulfillReplyBytes (id : List Nat) (p : Payload) : List Nat :=
  replyTag p.encoding :: id ++
    (if p.encoding = PayloadEncoding.utf16 then [0] else []) ++ p.data

/-! ## The dispatcher: handleSignal and handleRequest (src/server.go)

The two critical sections guarded by `opsLock` are embedded sequentially:
each handler runs as one atomic step between a free acquisition and the
final release of the lock.  The mutex itself is modelled explicitly only
for `Shutdown`, where its release is part of the claim under test. -/

/-- The shutdown coordination state of the server: the shutdown flag, the
in-flight operation counter, and whether the one-shot `shutdownRdy` channel
has been closed. -/
structure OpsState where
  shutdown : Bool
  currentOps : Nat
  shutdownRdyClosed : Bool
deriving DecidableEq, Repr

/-- The observable outcome of `handleSignal`: the resulting state, whether
the `OnSignal` callback of the embedder ran, and the reply sent to the peer
(`handleSignal` never sends one). -/
structure SignalOutcome where
  st : OpsState
  onSignalInvoked : Bool
  reply : Option (List Nat)
deriving DecidableEq, Repr

/-- Shallow embedding of `handleSignal` (src/server.go:159): during
shutdown the signal is dropped silently without invoking `OnSignal`;
otherwise the ops counter is incremented, `OnSignal` runs, the counter is
decremented and the `shutdownRdy` channel is closed when a scheduled
shutdown finds no operation left. -/
def handleSignal (st : OpsState) : SignalOutcome :=
  if st.shutdown = true then ⟨st, false, none⟩
  else
    ⟨⟨st.shutdown, st.currentOps + 1 - 1,
      if st.shutdown = true ∧ st.currentOps + 1 - 1 < 1 then true
      else st.shutdownRdyClosed⟩,
     true, none⟩

/-- The observable outcome of `handleRequest`: the resulting state, the
reply wire sent to the peer, whether the `OnRequest` callback of the
embedder ran, and whether an internal error was written to the error
log. -/
structure RequestOutcome where
  st : OpsState
  reply : List Nat
  onRequestInvoked : Bool
  loggedInternal : Bool
deriving DecidableEq, Repr

/-- Shallow embedding of `handleRequest` (src/server.go:182).  During
shutdown the request is rejected with the special `ServerShutdown` reply
(`msg.failDueToShutdown()`, modelled from the spec) without invoking
`OnRequest`.  Otherwise the ops counter is incremented, `OnRequest` runs
(its result is the oracle pair `onReqReply`, `onReqErr`), the returned
error is dispatched by dynamic type exactly as the Go type switch does, the
counter is decremented and `shutdownRdy` is closed when a scheduled
shutdown finds no operation left. -/
def handleRequest (st : OpsState) (id : List Nat) (onReqReply : Payload)
    (onReqErr : ErrorValue) : RequestOutcome :=
  if st.shutdown = true then ⟨st, MsgReplyShutdown :: id, false, false⟩
  else
    ⟨⟨st.shutdown, st.currentOps + 1 - 1,
      if st.shutdown = true ∧ st.currentOps + 1 - 1 < 1 then true
      else st.shutdownRdyClosed⟩,
     (match onReqErr with
      | ErrorValue.nil => fulfillReplyBytes id onReqReply
      | ErrorValue.reqErr e => failReplyBytes id (FailReason.reqErr e)
      | ErrorValue.reqErrPtr e => failReplyBytes id (FailReason.reqErr e)
      | ErrorValue.other d => failReplyBytes id (FailReason.other d)),
     true,
     (match onReqErr with
      | ErrorValue.other _ => true
      | _ => false)⟩

/-! ## ServeHTTP entry and Shutdown (src/server.go) -/

/-- The action `ServeHTTP` takes on a new incoming HTTP request before any
transport work. -/
inductive HttpAction
  | respond (status : Nat) (body : String)
  | delegateOpts
  | metadata
  | upgradeAttempt
deriving DecidableEq, Repr

/-- Shallow embedding of the entry of `ServeHTTP` (src/server.go:255):
during shutdown every new request is answered 503 with body
`Server shutting down`; otherwise `OPTIONS` is delegated to the embedder,
the synthetic `WEBWIRE` method is answered with the metadata document, and
any other method proceeds to the WebSocket upgrade. -/
def serveHTTPEntry (st : OpsState) (method : String) : HttpAction :=
  if st.shutdown = true then HttpAction.respond 503 "Server shutting down"
  else if method = "OPTIONS" then HttpAction.delegateOpts
  else if method = "WEBWIRE" then HttpAction.metadata
  else HttpAction.upgradeAttempt

/-- The server state as seen by `Shutdown`, with the `opsLock` mutex made
explicit. -/
structure LockState where
  shutdown : Bool
  currentOps : Nat
  opsLockHeld : Bool
deriving DecidableEq, Repr

/-- Shallow embedding of `Server.Shutdown` (src/server.go:349), entered
with the lock free.  The lock is taken and the shutdown flag set; when
`currentOps < 1` the function returns at once (the Go code reaches
`return` without `opsLock.Unlock()`, so the lock stays held); otherwise
the lock is released and the call blocks on the `shutdownRdy` one-shot,
which the second component reports. -/
def Shutdown (st : LockState) : LockState × Bool :=
  if st.currentOps < 1 then
    (⟨true, st.currentOps, true⟩, false)
  else
    (⟨true, st.currentOps, false⟩, true)

/-! ## Session restoration and closure handlers (src/server.go) -/

/-- The observable outcome of `handleSessionRestore`: a failed reply (with
the flag telling whether the handler also returned a non-nil error, logged
as critical by the read loop), a fulfilled reply together with the
resulting registry and client agent, or the panic of the register
invariant. -/
inductive SessionRestoreOutcome
  | failed (reason : FailReason) (critical : Bool)
  | fulfilled (p : Payload) (reg : SessionRegistry) (clt : Client)
  | invariantViolation

/-- Shallow embedding of `handleSessionRestore` (src/server.go:79).  The
requested key is the payload of the message; the result of
`SessionManager.OnSessionLookup(key)` is the oracle `lookupResult`
(`Except.error` for a lookup error, `Except.ok none` for a miss).  JSON
encoding of the found session is the total `encodeSession`, so the
marshalling error branch of the Go code is unreachable in the model. -/
def handleSessionRestore (sessionsEnabled : Bool) (reg : SessionRegistry)
    (clt : Client) (key : List Nat)
    (lookupResult : Except (List Nat) (Option Session)) : SessionRestoreOutcome :=
  if sessionsEnabled = false then
    SessionRestoreOutcome.failed FailReason.sessionsDisabled false
  else if 0 < reg.maxConns ∧ reg.maxConns < reg.SessionConnections key + 1 then
    SessionRestoreOutcome.failed FailReason.maxSessConnsReached false
  else
    match lookupResult with
    | Except.error _ => SessionRestoreOutcome.failed FailReason.nilErr true
    | Except.ok none => SessionRestoreOutcome.failed FailReason.sessNotFound false
    | Except.ok (some session) =>
      match reg.register session.key with
      | none => SessionRestoreOutcome.invariantViolation
      | some reg2 =>
        SessionRestoreOutcome.fulfilled
          ⟨PayloadEncoding.utf8, encodeSession session⟩ reg2
          { clt with session := some session }

/-- The observable outcome of `handleSessionClosure`: the reply (a fail
reason or a fulfilled payload), the resulting registry and client agent,
whether the `OnSessionClosed` hook of the session manager ran, whether the
peer was notified with the `SessionClosed` signal, and whether the handler
returned a non-nil (critical) error. -/
structure ClosureResult where
  reply : FailReason ⊕ Payload
  reg : SessionRegistry
  clt : Client
  onSessionClosedInvoked : Bool
  notifiedPeer : Bool
  critical : Bool

/-- Shallow embedding of `handleSessionClosure` (src/server.go:125)
together with `deregisterSession` (src/server.go:338).  The outcome of the
outbound `notifySessionClosed` write (part of the missing client agent
source; it fails when the connection is down) is the oracle `notifyOk`.
When sessions are disabled the reply is `SessionsDisabled`; without a held
session the request is fulfilled with an empty payload and nothing else
changes; with a held session the agent is deregistered and
`OnSessionClosed` runs, then on a successful notification the session
pointer is cleared and the request is fulfilled with an empty payload,
while on a failed notification the reply is `fail(nil)` and the pointer is
left set. -/
def handleSessionClosure (sessionsEnabled : Bool) (reg : SessionRegistry)
    (clt : Client) (notifyOk : Bool) : ClosureResult :=
  if sessionsEnabled = false then
    ⟨Sum.inl FailReason.sessionsDisabled, reg, clt, false, false, false⟩
  else
    match clt.session with
    | none => ⟨Sum.inr ⟨PayloadEncoding.binary, []⟩, reg, clt, false, false, false⟩
    | some s =>
      if notifyOk = false then
        ⟨Sum.inl FailReason.nilErr, reg.deregister s.key, clt, true, false, true⟩
      else
        ⟨Sum.inr ⟨PayloadEncoding.binary, []⟩, reg.deregister s.key, ⟨none⟩,
         true, true, false⟩

/-! ## NewServer (src/server.go) -/

/-- The server options relevant to the modelled state
(`opts.SetDefaults()` of the missing options source leaves these fields as
given). -/
structure ServerOptions where
  sessionsEnabled : Bool
  maxSessionConns : Nat
deriving DecidableEq, Repr

/-- The initial server state built by `NewServer`: shutdown flag, in-flight
operation counter, client roster (as a list of opaque client handles),
sessions switch and session registry. -/
structure ServerCore where
  shutdown : Bool
  currentOps : Nat
  clients : List Nat
  sessionsEnabled : Bool
  registry : SessionRegistry

/-- Shallow embedding of `NewServer` (src/server.go:38): a nil
`ServerImplementation` (the flag `implIsNil`) panics (modelled as `none`);
otherwise the server starts with the shutdown flag cleared, zero in-flight
operations, an empty client roster and an empty session registry capped by
`MaxSessionConnections`. -/
def NewServer (implIsNil : Bool) (opts : ServerOptions) : Option ServerCore :=
  if implIsNil = true then none
  else some ⟨false, 0, [], opts.sessionsEnabled, ⟨opts.maxSessionConns, fun _ => 0⟩⟩

/-! ## Helper lemmas -/

/-- A name fails the character set check exactly when some byte lies
outside the printable 7-bit range. -/
theorem nameCharsetOk_false_iff (l : List Nat) :
    nameCharsetOk l = false ↔ ∃ b ∈ l, ¬(32 ≤ b ∧ b ≤ 126) := by
  simp [nameCharsetOk, byteInCharset, List.all_eq_false]

/-- Decomposition of a successful `parseNamed` run: the parsed message
carries the given tag, identifier and encoding, its name passes the
character set check, utf16 payloads are even, and the input stream is
exactly the name length byte, the name, the alignment byte (present iff
the encoding is utf16 and the name length is odd) and the payload. -/
theorem parseNamed_spec (enc : PayloadEncoding) (t : Nat) (idBytes rest : List Nat)
    (msg : Message) (h : parseNamed enc t idBytes rest = some msg) :
    msg.msgType = t ∧ msg.id = idBytes ∧ msg.payload.encoding = enc ∧
    nameCharsetOk msg.name = true ∧
    (enc = PayloadEncoding.utf16 → msg.payload.data.length % 2 = 0) ∧
    ∃ hb : List Nat,
      rest = msg.name.length :: msg.name ++ hb ++ msg.payload.data ∧
      (enc = PayloadEncoding.utf16 ∧ msg.name.length % 2 = 1 → ∃ b, hb = [b]) ∧
      (¬(enc = PayloadEncoding.utf16 ∧ msg.name.length % 2 = 1) → hb = []) := by
  cases rest with
  | nil => simp [parseNamed] at h
  | cons nameLen r2 =>
    simp only [parseNamed] at h
    by_cases h1 : r2.length < nameLen
    · simp [h1] at h
    · rw [if_neg h1] at h
      by_cases h2 : nameCharsetOk (r2.take nameLen) = false
      · simp [h2] at h
      · rw [if_neg h2] at h
        have hcs : nameCharsetOk (r2.take nameLen) = true := by
          cases hx : nameCharsetOk (r2.take nameLen) with
          | false => exact absurd hx h2
          | true => rfl
        have hlen : (r2.take nameLen).length = nameLen := by
          rw [List.length_take]
          exact Nat.min_eq_left (Nat.le_of_not_lt h1)
        by_cases h3 : enc = PayloadEncoding.utf16
        · rw [if_pos h3] at h
          by_cases h4 : nameLen % 2 = 1
          · rw [if_pos h4] at h
            rcases hd : r2.drop nameLen with _ | ⟨b, payload⟩
            · rw [hd] at h; simp [parseAfterPad] at h
            · rw [hd] at h
              simp only [parseAfterPad] at h
              by_cases h5 : payload.length % 2 = 1
              · rw [if_pos h5] at h; simp at h
              · rw [if_neg h5] at h
                injection h with h
                subst h
                refine ⟨rfl, rfl, rfl, hcs, fun _ => ?_, [b], ?_, ?_, ?_⟩
                · show payload.length % 2 = 0
                  omega
                · show nameLen :: r2 =
                    (r2.take nameLen).length :: (r2.take nameLen ++ [b] ++ payload)
                  rw [hlen]
                  conv_lhs => rw [← List.take_append_drop nameLen r2, hd]
                  simp
                · intro _
                  exact ⟨b, rfl⟩
                · intro hc
                  exact absurd ⟨h3, by simpa [hlen] using h4⟩ hc
          · rw [if_neg h4] at h
            by_cases h5 : (r2.drop nameLen).length % 2 = 1
            · rw [if_pos h5] at h; simp at h
            · rw [if_neg h5] at h
              injection h with h
              subst h
              refine ⟨rfl, rfl, rfl, hcs, fun _ => ?_, [], ?_, ?_, fun _ => rfl⟩
              · show (r2.drop nameLen).length % 2 = 0
                omega
              · show nameLen :: r2 =
                  (r2.take nameLen).length :: (r2.take nameLen ++ [] ++ r2.drop nameLen)
                rw [hlen]
                simp [List.take_append_drop]
              · rintro ⟨_, hodd⟩
                exact absurd (by simpa [hlen] using hodd) h4
        · rw [if_neg h3] at h
          injection h with h
          subst h
          refine ⟨rfl, rfl, rfl, hcs, fun he => absurd he h3, [], ?_, ?_, fun _ => rfl⟩
          · show nameLen :: r2 =
              (r2.take nameLen).length :: (r2.take nameLen ++ [] ++ r2.drop nameLen)
            rw [hlen]
            simp [List.take_append_drop]
          · rintro ⟨he, _⟩
            exact absurd he h3

/-- Decomposition of a successful `parseReply` run: the parsed message
carries the given tag and encoding, an empty name and an 8-byte
identifier, utf16 payloads are even, and the input stream is exactly the
identifier, the alignment byte (present iff the encoding is utf16) and
the payload. -/
theorem parseReply_spec (enc : PayloadEncoding) (t : Nat) (rest : List Nat)
    (msg : Message) (h : parseReply enc t rest = some msg) :
    msg.msgType = t ∧ msg.name = [] ∧ msg.payload.encoding = enc ∧
    msg.id.length = 8 ∧
    (enc = PayloadEncoding.utf16 → msg.payload.data.length % 2 = 0) ∧
    ∃ hb : List Nat,
      rest = msg.id ++ hb ++ msg.payload.data ∧
      (enc = PayloadEncoding.utf16 → ∃ b, hb = [b]) ∧
      (¬enc = PayloadEncoding.utf16 → hb = []) := by
  rw [parseReply] at h
  by_cases h3 : enc = PayloadEncoding.utf16
  · rw [if_pos h3] at h
    by_cases h1 : rest.length < 9
    · simp [h1] at h
    · rw [if_neg h1] at h
      rcases hd : rest.drop 8 with _ | ⟨b, payload⟩
      · rw [hd] at h; simp [parseAfterPad] at h
      · rw [hd] at h
        simp only [parseAfterPad] at h
        by_cases h5 : payload.length % 2 = 1
        · rw [if_pos h5] at h; simp at h
        · rw [if_neg h5] at h
          injection h with h
          subst h
          refine ⟨rfl, rfl, rfl, ?_, fun _ => ?_, [b], ?_, fun _ => ⟨b, rfl⟩,
            fun hc => absurd h3 hc⟩
          · show (rest.take 8).length = 8
            rw [List.length_take]
            exact Nat.min_eq_left (by omega)
          · show payload.length % 2 = 0
            omega
          · show rest = rest.take 8 ++ [b] ++ payload
            conv_lhs => rw [← List.take_append_drop 8 rest, hd]
            simp
  · rw [if_neg h3] at h
    by_cases h1 : rest.length < 8
    · simp [h1] at h
    · rw [if_neg h1] at h
      injection h with h
      subst h
      refine ⟨rfl, rfl, rfl, ?_, fun he => absurd he h3, [], ?_,
        fun he => absurd he h3, fun _ => rfl⟩
      · show (rest.take 8).length = 8
        rw [List.length_take]
        exact Nat.min_eq_left (Nat.le_of_not_lt h1)
      · show rest = rest.take 8 ++ [] ++ rest.drop 8
        simp [List.take_append_drop]

/-- The parser accepts a well formed utf16 named stream with an odd name
length and a padding byte, recovering name and payload. -/
theorem parseNamed_utf16_pad (t : Nat) (idBytes name pd : List Nat)
    (hcs : nameCharsetOk name = true) (hodd : name.length % 2 = 1)
    (heven : pd.length % 2 = 0) :
    parseNamed PayloadEncoding.utf16 t idBytes (name.length :: (name ++ 0 :: pd)) =
      some ⟨t, idBytes, name, ⟨PayloadEncoding.utf16, pd⟩⟩ := by
  simp only [parseNamed]
  rw [List.take_left, List.drop_left]
  rw [if_neg (by simp), if_neg (by simp [hcs]), if_pos trivial, if_pos hodd]
  simp only [parseAfterPad]
  rw [if_neg (by omega)]

/-- The parser accepts a well formed utf16 named stream with an even name
length and no padding byte, recovering name and payload. -/
theorem parseNamed_utf16_nopad (t : Nat) (idBytes name pd : List Nat)
    (hcs : nameCharsetOk name = true) (hev : name.length % 2 = 0)
    (heven : pd.length % 2 = 0) :
    parseNamed PayloadEncoding.utf16 t idBytes (name.length :: (name ++ pd)) =
      some ⟨t, idBytes, name, ⟨PayloadEncoding.utf16, pd⟩⟩ := by
  simp only [parseNamed]
  rw [List.take_left, List.drop_left]
  rw [if_neg (by simp), if_neg (by simp [hcs]), if_pos trivial, if_neg (by omega),
    if_neg (by omega)]

/-- The parser accepts a well formed binary or utf8 named stream,
recovering name and payload. -/
theorem parseNamed_plain (enc : PayloadEncoding) (t : Nat) (idBytes name pd : List Nat)
    (hcs : nameCharsetOk name = true) (henc : ¬enc = PayloadEncoding.utf16) :
    parseNamed enc t idBytes (name.length :: (name ++ pd)) =
      some ⟨t, idBytes, name, ⟨enc, pd⟩⟩ := by
  simp only [parseNamed]
  rw [List.take_left, List.drop_left]
  rw [if_neg (by simp), if_neg (by simp [hcs]), if_neg henc]

/-- For an odd name length the parser demands the alignment byte: the same
utf16 stream without it (followed by an even length payload) is a parse
error. -/
theorem parseNamed_utf16_missing_pad (t : Nat) (idBytes name pd : List Nat)
    (hodd : name.length % 2 = 1) (heven : pd.length % 2 = 0) :
    parseNamed PayloadEncoding.utf16 t idBytes (name.length :: (name ++ pd)) = none := by
  simp only [parseNamed]
  rw [List.take_left, List.drop_left]
  rw [if_neg (by simp)]
  by_cases hc : nameCharsetOk name = false
  · rw [if_pos hc]
  · rw [if_neg hc, if_pos trivial, if_pos hodd]
    cases pd with
    | nil => simp [parseAfterPad]
    | cons b tl =>
      simp only [parseAfterPad]
      rw [if_pos (show tl.length % 2 = 1 by
        simp only [List.length_cons] at heven; omega)]

/-- Round trip for the signal branch of the parser: a parsed signal
re-encodes to the input up to the alignment byte, and the matching
constructor reproduces the canonical encoding. -/
theorem c7aux_signal (enc : PayloadEncoding) (rest : List Nat) (msg : Message)
    (hbrest : ∀ b ∈ rest, b < 256)
    (h : parseSignal enc (signalTag enc) rest = some msg) :
    (∃ b, signalTag enc :: rest = encodeWithPad msg b) ∧
    ((msg.msgType = MsgRequestBinary ∨ msg.msgType = MsgRequestUtf8 ∨
        msg.msgType = MsgRequestUtf16) →
      NewRequestMessage msg.id msg.name msg.payload = some (encodeMessage msg)) ∧
    ((msg.msgType = MsgSignalBinary ∨ msg.msgType = MsgSignalUtf8 ∨
        msg.msgType = MsgSignalUtf16) →
      NewSignalMessage msg.name msg.payload = some (encodeMessage msg)) ∧
    ((msg.msgType = MsgReplyBinary ∨ msg.msgType = MsgReplyUtf8 ∨
        msg.msgType = MsgReplyUtf16) →
      NewReplyMessage msg.id msg.payload = some (encodeMessage msg)) := by
  rw [parseSignal] at h
  by_cases hmin : rest.length < (if enc = PayloadEncoding.utf16 then 3 else 2)
  · rw [if_pos hmin] at h
    simp at h
  · rw [if_neg hmin] at h
    obtain ⟨hmt, hidv, henc, hcs, hev, hb, hdec, hbpad, hbnopad⟩ :=
      parseNamed_spec _ _ _ _ _ h
    have hmem : msg.name.length ∈ rest := by rw [hdec]; simp
    have h255 : ¬255 < msg.name.length := by
      have := hbrest _ hmem; omega
    have hB : ¬nameCharsetOk msg.name = false := by simp [hcs]
    cases enc with
    | binary =>
      have hbe : hb = [] := hbnopad (by simp)
      subst hbe
      refine ⟨⟨0, ?_⟩, fun hx => ?_, fun _ => ?_, fun hx => ?_⟩
      · rw [hdec]
        simp [encodeWithPad, hmt, signalTag]
      · simp [hmt, signalTag] at hx
      · simp [NewSignalMessage, signalTag, h255, hB, henc, encodeMessage,
          encodeWithPad, hmt]
      · simp [hmt, signalTag] at hx
    | utf8 =>
      have hbe : hb = [] := hbnopad (by simp)
      subst hbe
      refine ⟨⟨0, ?_⟩, fun hx => ?_, fun _ => ?_, fun hx => ?_⟩
      · rw [hdec]
        simp [encodeWithPad, hmt, signalTag]
      · simp [hmt, signalTag] at hx
      · simp [NewSignalMessage, signalTag, h255, hB, henc, encodeMessage,
          encodeWithPad, hmt]
      · simp [hmt, signalTag] at hx
    | utf16 =>
      by_cases hodd : msg.name.length % 2 = 1
      · obtain ⟨b0, hbe⟩ := hbpad ⟨rfl, hodd⟩
        subst hbe
        refine ⟨⟨b0, ?_⟩, fun hx => ?_, fun _ => ?_, fun hx => ?_⟩
        · rw [hdec]
          simp [encodeWithPad, hmt, signalTag, hodd]
        · simp [hmt, signalTag] at hx
        · simp [NewSignalMessage, signalTag, h255, hB, henc, encodeMessage,
            encodeWithPad, hmt, hodd, hev rfl]
        · simp [hmt, signalTag] at hx
      · have hbe : hb = [] := hbnopad (fun hx => hodd hx.2)
        subst hbe
        refine ⟨⟨0, ?_⟩, fun hx => ?_, fun _ => ?_, fun hx => ?_⟩
        · rw [hdec]
          simp [encodeWithPad, hmt, signalTag, hodd]
        · simp [hmt, signalTag] at hx
        · simp [NewSignalMessage, signalTag, h255, hB, henc, encodeMessage,
            encodeWithPad, hmt, hodd, hev rfl]
        · simp [hmt, signalTag] at hx

/-- Round trip for the request branch of the parser: a parsed request
re-encodes to the input up to the alignment byte, and the matching
constructor reproduces the canonical encoding. -/
theorem c7aux_request (enc : PayloadEncoding) (rest : List Nat) (msg : Message)
    (hbrest : ∀ b ∈ rest, b < 256)
    (h : parseRequest enc (requestTag enc) rest = some msg) :
    (∃ b, requestTag enc :: rest = encodeWithPad msg b) ∧
    ((msg.msgType = MsgRequestBinary ∨ msg.msgType = MsgRequestUtf8 ∨
        msg.msgType = MsgRequestUtf16) →
      NewRequestMessage msg.id msg.name msg.payload = some (encodeMessage msg)) ∧
    ((msg.msgType = MsgSignalBinary ∨ msg.msgType = MsgSignalUtf8 ∨
        msg.msgType = MsgSignalUtf16) →
      NewSignalMessage msg.name msg.payload = some (encodeMessage msg)) ∧
    ((msg.msgType = MsgReplyBinary ∨ msg.msgType = MsgReplyUtf8 ∨
        msg.msgType = MsgReplyUtf16) →
      NewReplyMessage msg.id msg.payload = some (encodeMessage msg)) := by
  rw [parseRequest] at h
  by_cases hmin : rest.length < (if enc = PayloadEncoding.utf16 then 11 else 10)
  · rw [if_pos hmin] at h
    simp at h
  · rw [if_neg hmin] at h
    obtain ⟨hmt, hidv, henc, hcs, hev, hb, hdec, hbpad, hbnopad⟩ :=
      parseNamed_spec _ _ _ _ _ h
    have hrest : rest = msg.id ++ rest.drop 8 := by
      rw [hidv]
      exact (List.take_append_drop 8 rest).symm
    have hmem : msg.name.length ∈ rest := by
      rw [hrest, hdec]; simp
    have h255 : ¬255 < msg.name.length := by
      have := hbrest _ hmem; omega
    have hB : ¬nameCharsetOk msg.name = false := by simp [hcs]
    cases enc with
    | binary =>
      have hbe : hb = [] := hbnopad (by simp)
      subst hbe
      refine ⟨⟨0, ?_⟩, fun _ => ?_, fun hx => ?_, fun hx => ?_⟩
      · conv_lhs => rw [hrest, hdec]
        simp [encodeWithPad, hmt, requestTag]
      · simp [NewRequestMessage, requestTag, h255, hB, henc, encodeMessage,
          encodeWithPad, hmt]
      · simp [hmt, requestTag] at hx
      · simp [hmt, requestTag] at hx
    | utf8 =>
      have hbe : hb = [] := hbnopad (by simp)
      subst hbe
      refine ⟨⟨0, ?_⟩, fun _ => ?_, fun hx => ?_, fun hx => ?_⟩
      · conv_lhs => rw [hrest, hdec]
        simp [encodeWithPad, hmt, requestTag]
      · simp [NewRequestMessage, requestTag, h255, hB, henc, encodeMessage,
          encodeWithPad, hmt]
      · simp [hmt, requestTag] at hx
      · simp [hmt, requestTag] at hx
    | utf16 =>
      by_cases hodd : msg.name.length % 2 = 1
      · obtain ⟨b0, hbe⟩ := hbpad ⟨rfl, hodd⟩
        subst hbe
        refine ⟨⟨b0, ?_⟩, fun _ => ?_, fun hx => ?_, fun hx => ?_⟩
        · conv_lhs => rw [hrest, hdec]
          simp [encodeWithPad, hmt, requestTag, hodd]
        · simp [NewRequestMessage, requestTag, h255, hB, henc, encodeMessage,
            encodeWithPad, hmt, hodd, hev rfl]
        · simp [hmt, requestTag] at hx
        · simp [hmt, requestTag] at hx
      · have hbe : hb = [] := hbnopad (fun hx => hodd hx.2)
        subst hbe
        refine ⟨⟨0, ?_⟩, fun _ => ?_, fun hx => ?_, fun hx => ?_⟩
        · conv_lhs => rw [hrest, hdec]
          simp [encodeWithPad, hmt, requestTag, hodd]
        · simp [NewRequestMessage, requestTag, h255, hB, henc, encodeMessage,
            encodeWithPad, hmt, hodd, hev rfl]
        · simp [hmt, requestTag] at hx
        · simp [hmt, requestTag] at hx

/-- Round trip for the reply branch of the parser: a parsed reply
re-encodes to the input up to the alignment byte, and the matching
constructor reproduces the canonical encoding. -/
theorem c7aux_reply (enc : PayloadEncoding) (rest : List Nat) (msg : Message)
    (h : parseReply enc (replyTag enc) rest = some msg) :
    (∃ b, replyTag enc :: rest = encodeWithPad msg b) ∧
    ((msg.msgType = MsgRequestBinary ∨ msg.msgType = MsgRequestUtf8 ∨
        msg.msgType = MsgRequestUtf16) →
      NewRequestMessage msg.id msg.name msg.payload = some (encodeMessage msg)) ∧
    ((msg.msgType = MsgSignalBinary ∨ msg.msgType = MsgSignalUtf8 ∨
        msg.msgType = MsgSignalUtf16) →
      NewSignalMessage msg.name msg.payload = some (encodeMessage msg)) ∧
    ((msg.msgType = MsgReplyBinary ∨ msg.msgType = MsgReplyUtf8 ∨
        msg.msgType = MsgReplyUtf16) →
      NewReplyMessage msg.id msg.payload = some (encodeMessage msg)) := by
  obtain ⟨hmt, hname, henc, hidlen, hev, hb, hdec, hbpad, hbnopad⟩ :=
    parseReply_spec _ _ _ _ h
  cases enc with
  | binary =>
    have hbe : hb = [] := hbnopad (by simp)
    subst hbe
    refine ⟨⟨0, ?_⟩, fun hx => ?_, fun hx => ?_, fun _ => ?_⟩
    · rw [hdec]
      simp [encodeWithPad, hmt, replyTag]
    · simp [hmt, replyTag] at hx
    · simp [hmt, replyTag] at hx
    · simp [NewReplyMessage, replyTag, henc, encodeMessage, encodeWithPad, hmt]
  | utf8 =>
    have hbe : hb = [] := hbnopad (by simp)
    subst hbe
    refine ⟨⟨0, ?_⟩, fun hx => ?_, fun hx => ?_, fun _ => ?_⟩
    · rw [hdec]
      simp [encodeWithPad, hmt, replyTag]
    · simp [hmt, replyTag] at hx
    · simp [hmt, replyTag] at hx
    · simp [NewReplyMessage, replyTag, henc, encodeMessage, encodeWithPad, hmt]
  | utf16 =>
    obtain ⟨b0, hbe⟩ := hbpad rfl
    subst hbe
    refine ⟨⟨b0, ?_⟩, fun hx => ?_, fun hx => ?_, fun _ => ?_⟩
    · rw [hdec]
      simp [encodeWithPad, hmt, replyTag]
    · simp [hmt, replyTag] at hx
    · simp [hmt, replyTag] at hx
    · simp [NewReplyMessage, replyTag, henc, encodeMessage, encodeWithPad, hmt,
        hev rfl]

/-- Tag dispatch of the parser for utf16 requests. -/
theorem parse_requestUtf16 (rest : List Nat) :
    parse (MsgRequestUtf16 :: rest) =
      parseRequest PayloadEncoding.utf16 MsgRequestUtf16 rest := by
  simp [parse]

/-- Tag dispatch of the parser for utf16 signals. -/
theorem parse_signalUtf16 (rest : List Nat) :
    parse (MsgSignalUtf16 :: rest) =
      parseSignal PayloadEncoding.utf16 MsgSignalUtf16 rest := by
  simp [parse]

/-! ## Claims -/

/-- C1 counterexample: the claim says the padding byte is inserted iff
`1 + name_len` is odd.  For the one byte name "a" (`name_len = 1`, so
`1 + name_len` is even) the claim predicts no padding, but the utf16
request encoder does insert one 0x00 byte between the name and the payload
(scenario S2 of the spec and `TestMsgNewReqMsgUtf16`). -/
theorem c1_padding_counterexample :
    (1 + 1) % 2 = 0 ∧
    NewRequestMessage zeroId [97] ⟨PayloadEncoding.utf16, [114, 0, 97, 0]⟩ ≠
      some (MsgRequestUtf16 :: zeroId ++ [1, 97] ++ [114, 0, 97, 0]) ∧
    NewRequestMessage zeroId [97] ⟨PayloadEncoding.utf16, [114, 0, 97, 0]⟩ =
      some (MsgRequestUtf16 :: zeroId ++ [1, 97, 0] ++ [114, 0, 97, 0]) := by
  decide

/-- C1 (amended): for request and signal messages with a name of length 1
to 255 and declared encoding utf16, the encoder inserts exactly one 0x00
padding byte between the name and the payload iff the name length is odd
(equivalently, iff `1 + name_len` is even), the parser accepts exactly
that layout, recovering the payload, and rejects the unpadded stream when
the name length is odd; for the other encodings no padding byte is ever
inserted. -/
theorem c1_utf16_padding (id name pd : List Nat) (hid : id.length = 8)
    (h1 : 1 ≤ name.length) (h255 : name.length ≤ 255)
    (hcs : nameCharsetOk name = true) (heven : pd.length % 2 = 0) :
    (NewRequestMessage id name ⟨PayloadEncoding.utf16, pd⟩ =
      some (MsgRequestUtf16 :: id ++ name.length :: name ++
        (if name.length % 2 = 1 then [0] else []) ++ pd)) ∧
    (NewSignalMessage name ⟨PayloadEncoding.utf16, pd⟩ =
      some (MsgSignalUtf16 :: name.length :: name ++
        (if name.length % 2 = 1 then [0] else []) ++ pd)) ∧
    (∀ d : List Nat,
      NewRequestMessage id name ⟨PayloadEncoding.binary, d⟩ =
        some (MsgRequestBinary :: id ++ name.length :: name ++ d) ∧
      NewRequestMessage id name ⟨PayloadEncoding.utf8, d⟩ =
        some (MsgRequestUtf8 :: id ++ name.length :: name ++ d) ∧
      NewSignalMessage name ⟨PayloadEncoding.binary, d⟩ =
        some (MsgSignalBinary :: name.length :: name ++ d) ∧
      NewSignalMessage name ⟨PayloadEncoding.utf8, d⟩ =
        some (MsgSignalUtf8 :: name.length :: name ++ d)) ∧
    (parse (MsgRequestUtf16 :: id ++ name.length :: name ++
        (if name.length % 2 = 1 then [0] else []) ++ pd) =
      some ⟨MsgRequestUtf16, id, name, ⟨PayloadEncoding.utf16, pd⟩⟩) ∧
    (parse (MsgSignalUtf16 :: name.length :: name ++
        (if name.length % 2 = 1 then [0] else []) ++ pd) =
      some ⟨MsgSignalUtf16, zeroId, name, ⟨PayloadEncoding.utf16, pd⟩⟩) ∧
    (name.length % 2 = 1 →
      parse (MsgRequestUtf16 :: id ++ name.length :: name ++ pd) = none ∧
      parse (MsgSignalUtf16 :: name.length :: name ++ pd) = none) := by
  have hA : ¬255 < name.length := by omega
  have hB : ¬nameCharsetOk name = false := by simp [hcs]
  have hpd : ¬pd.length % 2 = 1 := by omega
  refine ⟨?_, ?_, ?_, ?_, ?_, ?_⟩
  · simp [NewRequestMessage, hA, hB, hpd, requestTag]
  · simp [NewSignalMessage, hA, hB, hpd, signalTag]
  · intro d
    refine ⟨?_, ?_, ?_, ?_⟩ <;>
      simp [NewRequestMessage, NewSignalMessage, hA, hB, requestTag, signalTag]
  · simp only [List.cons_append, List.append_assoc]
    by_cases hpar : name.length % 2 = 1
    · rw [if_pos hpar]
      simp only [List.singleton_append]
      rw [parse_requestUtf16, parseRequest, if_neg ?hminr1,
        List.take_left' hid, List.drop_left' hid]
      case hminr1 =>
        simp [List.length_append, hid]
        omega
      exact parseNamed_utf16_pad _ _ _ _ hcs hpar heven
    · rw [if_neg hpar]
      simp only [List.nil_append]
      rw [parse_requestUtf16, parseRequest, if_neg ?hminr2,
        List.take_left' hid, List.drop_left' hid]
      case hminr2 =>
        simp [List.length_append, hid]
        omega
      exact parseNamed_utf16_nopad _ _ _ _ hcs (by omega) heven
  · simp only [List.cons_append, List.append_assoc]
    by_cases hpar : name.length % 2 = 1
    · rw [if_pos hpar]
      simp only [List.singleton_append]
      rw [parse_signalUtf16, parseSignal, if_neg ?hmins1]
      case hmins1 =>
        simp [List.length_append]
        omega
      exact parseNamed_utf16_pad _ _ _ _ hcs hpar heven
    · rw [if_neg hpar]
      simp only [List.nil_append]
      rw [parse_signalUtf16, parseSignal, if_neg ?hmins2]
      case hmins2 =>
        simp [List.length_append]
        omega
      exact parseNamed_utf16_nopad _ _ _ _ hcs (by omega) heven
  · intro hpar
    constructor
    · simp only [List.cons_append, List.append_assoc]
      rw [parse_requestUtf16, parseRequest]
      split
      · split
        · rfl
        · rw [List.take_left' hid, List.drop_left' hid]
          exact parseNamed_utf16_missing_pad _ _ _ _ hpar heven
      · rename_i hne
        exact absurd rfl hne
    · simp only [List.cons_append, List.append_assoc]
      rw [parse_signalUtf16, parseSignal]
      split
      · split
        · rfl
        · exact parseNamed_utf16_missing_pad _ _ _ _ hpar heven
      · rename_i hne
        exact absurd rfl hne

/-- C1 witness: the amended theorem applied to the one byte name "a" (odd
length, padding present) with the utf16 payload `r\0a\0`. -/
theorem c1_utf16_padding_witness :
    NewRequestMessage zeroId [97] ⟨PayloadEncoding.utf16, [114, 0, 97, 0]⟩ =
      some (MsgRequestUtf16 :: zeroId ++ [97].length :: [97] ++
        (if [97].length % 2 = 1 then [0] else []) ++ [114, 0, 97, 0]) ∧
    parse (MsgRequestUtf16 :: zeroId ++ [97].length :: [97] ++
        (if [97].length % 2 = 1 then [0] else []) ++ [114, 0, 97, 0]) =
      some ⟨MsgRequestUtf16, zeroId, [97], ⟨PayloadEncoding.utf16, [114, 0, 97, 0]⟩⟩ :=
  ⟨(c1_utf16_padding zeroId [97] [114, 0, 97, 0] (by decide) (by decide) (by decide)
      (by decide) (by decide)).1,
   (c1_utf16_padding zeroId [97] [114, 0, 97, 0] (by decide) (by decide) (by decide)
      (by decide) (by decide)).2.2.2.1⟩

/-- C2: for every request message and every error value returned by
`OnRequest` that is neither nil nor of type `ReqErr` nor `*ReqErr`,
`handleRequest` logs the error internally and sends the peer a generic
`InternalError` special reply, carrying only the tag and the correlation
identifier, whose wire content does not depend on the returned error, so
no embedder diagnostic text reaches the peer. -/
theorem c2_internal_error_hidden (st : OpsState) (id : List Nat) (p : Payload)
    (d : List Nat) (h : st.shutdown = false) :
    (handleRequest st id p (ErrorValue.other d)).reply = MsgInternalError :: id ∧
    (handleRequest st id p (ErrorValue.other d)).loggedInternal = true ∧
    ∀ d' : List Nat,
      (handleRequest st id p (ErrorValue.other d')).reply =
        (handleRequest st id p (ErrorValue.other d)).reply := by
  refine ⟨?_, ?_, ?_⟩ <;> simp [handleRequest, h, failReplyBytes]

/-- C2 witness: the theorem applied at a concrete non-shutdown state, a
concrete identifier and a concrete diagnostic text. -/
theorem c2_internal_error_hidden_witness :
    (handleRequest ⟨false, 0, false⟩ zeroId ⟨PayloadEncoding.binary, []⟩
        (ErrorValue.other [98, 111, 111, 109])).reply = MsgInternalError :: zeroId ∧
    (handleRequest ⟨false, 0, false⟩ zeroId ⟨PayloadEncoding.binary, []⟩
        (ErrorValue.other [98, 111, 111, 109])).loggedInternal = true ∧
    ∀ d' : List Nat,
      (handleRequest ⟨false, 0, false⟩ zeroId ⟨PayloadEncoding.binary, []⟩
          (ErrorValue.other d')).reply =
        (handleRequest ⟨false, 0, false⟩ zeroId ⟨PayloadEncoding.binary, []⟩
            (ErrorValue.other [98, 111, 111, 109])).reply :=
  c2_internal_error_hidden ⟨false, 0, false⟩ zeroId ⟨PayloadEncoding.binary, []⟩
    [98, 111, 111, 109] rfl

/-- C3: whenever the shutdown flag is set, `handleRequest` replies to every
incoming request with the `ServerShutdown` special error without invoking
`OnRequest` and without touching the state, `handleSignal` drops every
incoming signal without invoking `OnSignal` and without sending any reply,
and the entry of `ServeHTTP` answers every new HTTP request with status 503
and body `Server shutting down` without attempting an upgrade. -/
theorem c3_shutdown_rejections (st : OpsState) (id : List Nat) (p : Payload)
    (ev : ErrorValue) (method : String) (h : st.shutdown = true) :
    (handleRequest st id p ev).reply = MsgReplyShutdown :: id ∧
    (handleRequest st id p ev).onRequestInvoked = false ∧
    (handleRequest st id p ev).st = st ∧
    handleSignal st = ⟨st, false, none⟩ ∧
    serveHTTPEntry st method = HttpAction.respond 503 "Server shutting down" := by
  refine ⟨?_, ?_, ?_, ?_, ?_⟩ <;> simp [handleRequest, handleSignal, serveHTTPEntry, h]

/-- C3 witness: the theorem applied at a concrete shutdown state, request
and method. -/
theorem c3_shutdown_rejections_witness :
    (handleRequest ⟨true, 0, false⟩ zeroId ⟨PayloadEncoding.binary, []⟩
        ErrorValue.nil).reply = MsgReplyShutdown :: zeroId ∧
    (handleRequest ⟨true, 0, false⟩ zeroId ⟨PayloadEncoding.binary, []⟩
        ErrorValue.nil).onRequestInvoked = false ∧
    (handleRequest ⟨true, 0, false⟩ zeroId ⟨PayloadEncoding.binary, []⟩
        ErrorValue.nil).st = ⟨true, 0, false⟩ ∧
    handleSignal ⟨true, 0, false⟩ = ⟨⟨true, 0, false⟩, false, none⟩ ∧
    serveHTTPEntry ⟨true, 0, false⟩ "GET" =
      HttpAction.respond 503 "Server shutting down" :=
  c3_shutdown_rejections ⟨true, 0, false⟩ zeroId ⟨PayloadEncoding.binary, []⟩
    ErrorValue.nil "GET" rfl

/-- C4: evaluation of `Shutdown` at the failing input of the claim.  Called
with no operation in flight it returns immediately with the shutdown flag
set but with the ops mutex still held, because the early return in
src/server.go:353 skips `opsLock.Unlock()`; on the blocking path (one
operation in flight) the mutex is released before the wait on the
`shutdownRdy` one-shot, as the claim describes. -/
theorem c4_shutdown_lock_bug :
    Shutdown ⟨false, 0, false⟩ = (⟨true, 0, true⟩, false) ∧
    Shutdown ⟨false, 1, false⟩ = (⟨true, 1, false⟩, true) := by decide

/-- C5: on a `RestoreSession` message the handler fails with
`SessionsDisabled` when sessions are disabled; fails with
`MaxSessionConnectionsReached` exactly when a positive cap would be
exceeded by admitting the agent, never producing that error under the
unlimited cap 0; replies with the generic nil failure (and a critical
handler error) on a lookup error; fails with `SessionNotFound` on a lookup
miss; and on a hit attaches the session to the agent, raises the registry
bucket of the key by one and fulfils the request with the JSON encoded
session as a utf8 payload. -/
theorem c5_session_restore (reg : SessionRegistry) (clt : Client) (key : List Nat)
    (lr : Except (List Nat) (Option Session)) :
    (handleSessionRestore false reg clt key lr =
      SessionRestoreOutcome.failed FailReason.sessionsDisabled false) ∧
    (0 < reg.maxConns → reg.maxConns < reg.SessionConnections key + 1 →
      handleSessionRestore true reg clt key lr =
        SessionRestoreOutcome.failed FailReason.maxSessConnsReached false) ∧
    (reg.maxConns = 0 → ∀ (en : Bool) (c : Bool),
      handleSessionRestore en reg clt key lr ≠
        SessionRestoreOutcome.failed FailReason.maxSessConnsReached c) ∧
    (¬(0 < reg.maxConns ∧ reg.maxConns < reg.SessionConnections key + 1) →
      ∀ e, lr = Except.error e →
        handleSessionRestore true reg clt key lr =
          SessionRestoreOutcome.failed FailReason.nilErr true) ∧
    (¬(0 < reg.maxConns ∧ reg.maxConns < reg.SessionConnections key + 1) →
      lr = Except.ok none →
        handleSessionRestore true reg clt key lr =
          SessionRestoreOutcome.failed FailReason.sessNotFound false) ∧
    (¬(0 < reg.maxConns ∧ reg.maxConns < reg.SessionConnections key + 1) →
      ∀ s, lr = Except.ok (some s) → s.key = key →
        handleSessionRestore true reg clt key lr =
          SessionRestoreOutcome.fulfilled
            ⟨PayloadEncoding.utf8, encodeSession s⟩
            ⟨reg.maxConns, Function.update reg.conns key (reg.conns key + 1)⟩
            { clt with session := some s }) := by
  refine ⟨?_, ?_, ?_, ?_, ?_, ?_⟩
  · simp [handleSessionRestore]
  · intro h1 h2
    simp [handleSessionRestore, if_pos (And.intro h1 h2)]
  · intro h0 en c
    cases en with
    | false => simp [handleSessionRestore]
    | true =>
      rcases lr with e | os
      · simp [handleSessionRestore, h0]
      · rcases os with _ | s
        · simp [handleSessionRestore, h0]
        · simp [handleSessionRestore, SessionRegistry.register, h0]
  · intro hcap e hlr
    subst hlr
    simp [handleSessionRestore, if_neg hcap]
  · intro hcap hlr
    subst hlr
    simp [handleSessionRestore, if_neg hcap]
  · intro hcap s hlr hkey
    subst hlr
    subst hkey
    have hreg : reg.register s.key =
        some ⟨reg.maxConns, Function.update reg.conns s.key (reg.conns s.key + 1)⟩ := by
      rw [SessionRegistry.register, if_neg]
      rintro ⟨a, b⟩
      exact hcap ⟨a, Nat.lt_succ_of_le b⟩
    simp [handleSessionRestore, if_neg hcap, hreg]

/-- C5 witness: the theorem applied at a concrete empty registry with
unlimited cap, a fresh agent and a successful lookup of the session stored
under the requested key. -/
theorem c5_session_restore_witness :
    handleSessionRestore true ⟨0, fun _ => 0⟩ ⟨none⟩ [107]
        (Except.ok (some ⟨[107], 5, []⟩)) =
      SessionRestoreOutcome.fulfilled
        ⟨PayloadEncoding.utf8, encodeSession ⟨[107], 5, []⟩⟩
        ⟨0, Function.update (fun _ => 0) [107] 1⟩
        ⟨some ⟨[107], 5, []⟩⟩ :=
  (c5_session_restore ⟨0, fun _ => 0⟩ ⟨none⟩ [107]
      (Except.ok (some ⟨[107], 5, []⟩))).2.2.2.2.2
    (by simp) ⟨[107], 5, []⟩ rfl rfl

/-- C6 counterexample: with sessions enabled and an agent holding a
session, when the `SessionClosed` notification to the peer cannot be
delivered (dead connection) the handler does not fulfil the request with an
empty payload and does not clear the session pointer, contradicting the
claim that holding a session always leads to notification, a cleared
pointer and a fulfilled reply. -/
theorem c6_session_closure_counterexample :
    (handleSessionClosure true ⟨0, fun _ => 0⟩ ⟨some ⟨[107], 5, []⟩⟩ false).notifiedPeer
      = false ∧
    (handleSessionClosure true ⟨0, fun _ => 0⟩ ⟨some ⟨[107], 5, []⟩⟩ false).reply ≠
      Sum.inr ⟨PayloadEncoding.binary, []⟩ ∧
    (handleSessionClosure true ⟨0, fun _ => 0⟩ ⟨some ⟨[107], 5, []⟩⟩ false).clt =
      ⟨some ⟨[107], 5, []⟩⟩ := by
  refine ⟨?_, ?_, ?_⟩ <;> simp [handleSessionClosure]

/-- C6 (amended): for every `CloseSession` message, if sessions are
disabled the reply is `SessionsDisabled`; if the agent holds no session the
request is fulfilled with an empty payload while registry, session manager
and session pointer stay untouched; if the agent holds a session the agent
is deregistered and `OnSessionClosed` runs, and then, provided the
`SessionClosed` notification to the peer succeeds, the session pointer is
cleared and the request is fulfilled with an empty payload, while a failed
notification leaves the pointer set and produces a generic nil failure with
a critical handler error. -/
theorem c6_session_closure (en notifyOk : Bool) (reg : SessionRegistry) (clt : Client) :
    (en = false →
      handleSessionClosure en reg clt notifyOk =
        ⟨Sum.inl FailReason.sessionsDisabled, reg, clt, false, false, false⟩) ∧
    (en = true → clt.session = none →
      handleSessionClosure en reg clt notifyOk =
        ⟨Sum.inr ⟨PayloadEncoding.binary, []⟩, reg, clt, false, false, false⟩) ∧
    (∀ s, en = true → clt.session = some s → notifyOk = true →
      handleSessionClosure en reg clt notifyOk =
        ⟨Sum.inr ⟨PayloadEncoding.binary, []⟩, reg.deregister s.key, ⟨none⟩,
         true, true, false⟩) ∧
    (∀ s, en = true → clt.session = some s → notifyOk = false →
      handleSessionClosure en reg clt notifyOk =
        ⟨Sum.inl FailReason.nilErr, reg.deregister s.key, clt, true, false, true⟩) := by
  refine ⟨?_, ?_, ?_, ?_⟩
  · intro h; subst h; simp [handleSessionClosure]
  · intro h hs; subst h; simp [handleSessionClosure, hs]
  · intro s h hs hn; subst h; subst hn; simp [handleSessionClosure, hs]
  · intro s h hs hn; subst h; subst hn; simp [handleSessionClosure, hs]

/-- C6 witness: the amended theorem applied at a concrete registry and an
agent holding a session, with the notification delivered. -/
theorem c6_session_closure_witness :
    handleSessionClosure true ⟨0, fun _ => 0⟩ ⟨some ⟨[107], 5, []⟩⟩ true =
      ⟨Sum.inr ⟨PayloadEncoding.binary, []⟩,
       SessionRegistry.deregister ⟨0, fun _ => 0⟩ [107], ⟨none⟩, true, true, false⟩ :=
  (c6_session_closure true true ⟨0, fun _ => 0⟩ ⟨some ⟨[107], 5, []⟩⟩).2.2.1
    ⟨[107], 5, []⟩ rfl rfl rfl

/-- C7: for every byte string the parser accepts, re-encoding the parsed
result reproduces the input up to the optional alignment byte: there is a
value of that byte (the one that was on the wire) for which the
re-encoding is exactly the input, so type tag, identifier (all zero for
tags that carry none), name and payload bytes are all preserved; moreover
for request, signal and reply tags the matching outbound constructor
accepts the parsed fields and produces the canonical re-encoding. -/
theorem c7_parse_encode_roundtrip (m : List Nat) (msg : Message)
    (hbytes : ∀ b ∈ m, b < 256) (h : parse m = some msg) :
    (∃ b, m = encodeWithPad msg b) ∧
    ((msg.msgType = MsgRequestBinary ∨ msg.msgType = MsgRequestUtf8 ∨
        msg.msgType = MsgRequestUtf16) →
      NewRequestMessage msg.id msg.name msg.payload = some (encodeMessage msg)) ∧
    ((msg.msgType = MsgSignalBinary ∨ msg.msgType = MsgSignalUtf8 ∨
        msg.msgType = MsgSignalUtf16) →
      NewSignalMessage msg.name msg.payload = some (encodeMessage msg)) ∧
    ((msg.msgType = MsgReplyBinary ∨ msg.msgType = MsgReplyUtf8 ∨
        msg.msgType = MsgReplyUtf16) →
      NewReplyMessage msg.id msg.payload = some (encodeMessage msg)) := by
  cases m with
  | nil => simp [parse] at h
  | cons t rest =>
    have hbrest : ∀ b ∈ rest, b < 256 := fun b hb =>
      hbytes b (List.mem_cons_of_mem _ hb)
    simp only [parse] at h
    by_cases hc1 : t = MsgCloseSession ∨ t = MsgReplyShutdown ∨
        t = MsgInternalError ∨ t = MsgSessionNotFound ∨
        t = MsgMaxSessConnsReached ∨ t = MsgSessionsDisabled
    · rw [if_pos hc1] at h
      by_cases hlen : rest.length = 8
      · rw [if_pos hlen] at h
        injection h with h
        subst h
        rcases hc1 with hc | hc | hc | hc | hc | hc <;> subst hc <;>
          exact ⟨⟨0, by simp [encodeWithPad]⟩, fun hx => by simp at hx,
            fun hx => by simp at hx, fun hx => by simp at hx⟩
      · rw [if_neg hlen] at h
        simp at h
    · rw [if_neg hc1] at h
      by_cases hc2 : t = MsgRestoreSession
      · rw [if_pos hc2] at h
        subst hc2
        by_cases hlen : rest.length < 9
        · rw [if_pos hlen] at h; simp at h
        · rw [if_neg hlen] at h
          injection h with h
          subst h
          exact ⟨⟨0, by simp [encodeWithPad]⟩, fun hx => by simp at hx,
            fun hx => by simp at hx, fun hx => by simp at hx⟩
      · rw [if_neg hc2] at h
        by_cases hc3 : t = MsgErrorReply
        · rw [if_pos hc3] at h
          subst hc3
          by_cases hlen : rest.length < 10
          · rw [if_pos hlen] at h; simp at h
          · rw [if_neg hlen] at h
            injection h with h
            subst h
            exact ⟨⟨0, by simp [encodeWithPad]⟩, fun hx => by simp at hx,
              fun hx => by simp at hx, fun hx => by simp at hx⟩
        · rw [if_neg hc3] at h
          by_cases hc4 : t = MsgSessionCreated
          · rw [if_pos hc4] at h
            subst hc4
            by_cases hlen : rest.length < 1
            · rw [if_pos hlen] at h; simp at h
            · rw [if_neg hlen] at h
              injection h with h
              subst h
              exact ⟨⟨0, by simp [encodeWithPad]⟩, fun hx => by simp at hx,
                fun hx => by simp at hx, fun hx => by simp at hx⟩
          · rw [if_neg hc4] at h
            by_cases hc5 : t = MsgSessionClosed
            · rw [if_pos hc5] at h
              subst hc5
              by_cases hlen : rest.length = 0
              · rw [if_pos hlen] at h
                injection h with h
                subst h
                have hre : rest = [] := List.length_eq_zero.mp hlen
                subst hre
                exact ⟨⟨0, by simp [encodeWithPad]⟩, fun hx => by simp at hx,
                  fun hx => by simp at hx, fun hx => by simp at hx⟩
              · rw [if_neg hlen] at h; simp at h
            · rw [if_neg hc5] at h
              by_cases hc6 : t = MsgSignalBinary
              · rw [if_pos hc6] at h; subst hc6
                exact c7aux_signal PayloadEncoding.binary rest msg hbrest h
              · rw [if_neg hc6] at h
                by_cases hc7 : t = MsgSignalUtf8
                · rw [if_pos hc7] at h; subst hc7
                  exact c7aux_signal PayloadEncoding.utf8 rest msg hbrest h
                · rw [if_neg hc7] at h
                  by_cases hc8 : t = MsgSignalUtf16
                  · rw [if_pos hc8] at h; subst hc8
                    exact c7aux_signal PayloadEncoding.utf16 rest msg hbrest h
                  · rw [if_neg hc8] at h
                    by_cases hc9 : t = MsgRequestBinary
                    · rw [if_pos hc9] at h; subst hc9
                      exact c7aux_request PayloadEncoding.binary rest msg hbrest h
                    · rw [if_neg hc9] at h
                      by_cases hc10 : t = MsgRequestUtf8
                      · rw [if_pos hc10] at h; subst hc10
                        exact c7aux_request PayloadEncoding.utf8 rest msg hbrest h
                      · rw [if_neg hc10] at h
                        by_cases hc11 : t = MsgRequestUtf16
                        · rw [if_pos hc11] at h; subst hc11
                          exact c7aux_request PayloadEncoding.utf16 rest msg hbrest h
                        · rw [if_neg hc11] at h
                          by_cases hc12 : t = MsgReplyBinary
                          · rw [if_pos hc12] at h; subst hc12
                            exact c7aux_reply PayloadEncoding.binary rest msg h
                          · rw [if_neg hc12] at h
                            by_cases hc13 : t = MsgReplyUtf8
                            · rw [if_pos hc13] at h; subst hc13
                              exact c7aux_reply PayloadEncoding.utf8 rest msg h
                            · rw [if_neg hc13] at h
                              by_cases hc14 : t = MsgReplyUtf16
                              · rw [if_pos hc14] at h; subst hc14
                                exact c7aux_reply PayloadEncoding.utf16 rest msg h
                              · rw [if_neg hc14] at h
                                simp at h

/-- C7 witness: the theorem applied to a concrete wire message, the utf16
request of scenario S2 with name "a" and payload `r\0a\0`, whose
alignment byte on the wire is 0, so the canonical re-encoding is the
input itself. -/
theorem c7_parse_encode_roundtrip_witness :
    ∃ b, [129, 0, 0, 0, 0, 0, 0, 0, 0, 1, 97, 0, 114, 0, 97, 0] =
      encodeWithPad ⟨129, zeroId, [97], ⟨PayloadEncoding.utf16, [114, 0, 97, 0]⟩⟩ b :=
  (c7_parse_encode_roundtrip [129, 0, 0, 0, 0, 0, 0, 0, 0, 1, 97, 0, 114, 0, 97, 0]
    ⟨129, zeroId, [97], ⟨PayloadEncoding.utf16, [114, 0, 97, 0]⟩⟩
    (by decide) (by decide)).1

/-- C8: the outbound constructors reject (Go: panic) exactly on caller
invariant violations: `NewRequestMessage` and `NewSignalMessage` on a name
longer than 255 bytes or containing a byte outside 0x20 to 0x7E or on a
utf16 payload of odd byte length, `NewReplyMessage` on a utf16 payload of
odd byte length, and `NewErrorReplyMessage` on an empty error code, a code
longer than 255 bytes or a code containing a byte outside the range. -/
theorem c8_constructor_invariants (id name code emsg : List Nat) (p : Payload) :
    (NewRequestMessage id name p = none ↔
      255 < name.length ∨ (∃ b ∈ name, ¬(32 ≤ b ∧ b ≤ 126)) ∨
        (p.encoding = PayloadEncoding.utf16 ∧ p.data.length % 2 = 1)) ∧
    (NewSignalMessage name p = none ↔
      255 < name.length ∨ (∃ b ∈ name, ¬(32 ≤ b ∧ b ≤ 126)) ∨
        (p.encoding = PayloadEncoding.utf16 ∧ p.data.length % 2 = 1)) ∧
    (NewReplyMessage id p = none ↔
      p.encoding = PayloadEncoding.utf16 ∧ p.data.length % 2 = 1) ∧
    (NewErrorReplyMessage id code emsg = none ↔
      code = [] ∨ 255 < code.length ∨ ∃ b ∈ code, ¬(32 ≤ b ∧ b ≤ 126)) := by
  rw [← nameCharsetOk_false_iff name, ← nameCharsetOk_false_iff code]
  refine ⟨?_, ?_, ?_, ?_⟩
  · rw [NewRequestMessage]
    split_ifs with h1 h2 h3 <;> simp_all
  · rw [NewSignalMessage]
    split_ifs with h1 h2 h3 <;> simp_all
  · rw [NewReplyMessage]
    split_ifs with h1 <;> simp_all
  · rw [NewErrorReplyMessage]
    split_ifs with h1 h2 h3 <;> simp_all

/-- C9: a connected agent that holds no session answers all public getters
with the fixed empty values: `Session()` is nil, `SessionCreation()` is the
zero time value, `SessionKey()` is the empty string and `SessionInfo(f)` is
nil for every field name. -/
theorem c9_empty_session_getters (c : Client) (h : c.session = none) :
    c.Session = none ∧ c.SessionCreation = zeroTime ∧ c.SessionKey = [] ∧
    ∀ f : List Nat, c.SessionInfo f = none := by
  refine ⟨?_, ?_, ?_, fun f => ?_⟩ <;>
    simp [Client.Session, Client.SessionCreation, Client.SessionKey,
      Client.SessionInfo, h]

/-- C9 witness: the theorem applied to a freshly connected agent, which
holds no session. -/
theorem c9_empty_session_getters_witness :
    newClientAgent.Session = none ∧ newClientAgent.SessionCreation = zeroTime ∧
    newClientAgent.SessionKey = [] ∧
    ∀ f : List Nat, newClientAgent.SessionInfo f = none :=
  c9_empty_session_getters newClientAgent rfl

/-- C10: `NewServer` panics (modelled as `none`) exactly when the given
`ServerImplementation` is nil, and for every non-nil implementation returns
a server whose initial state has the shutdown flag cleared, an in-flight
operation counter of zero and an empty client roster. -/
theorem c10_new_server (opts : ServerOptions) :
    NewServer true opts = none ∧
    ∃ st, NewServer false opts = some st ∧
      st.shutdown = false ∧ st.currentOps = 0 ∧ st.clients = [] :=
  ⟨rfl, ⟨⟨false, 0, [], opts.sessionsEnabled, ⟨opts.maxSessionConns, fun _ => 0⟩⟩,
    rfl, rfl, rfl, rfl⟩⟩

end Webwire
